import Mathlib

/-!
Verification of the nuketown daemon core (`src/daemon/nuketown_daemon`)
against its natural-language specification.

Shallow embedding conventions:
* Python dataclasses become Lean structures with the same field names.
* JSON request dictionaries become structures of `Option String` fields;
  `dict.get(key, default)` is `field.getD default`.
* The event loop's interleaving points are modelled by explicit inputs
  (lists of connection-attempt outcomes, lists of delivered responses,
  per-message processing outcomes), since the Python code is single
  logical thread of control between awaits.
* An uncaught Python exception is `Option.none` in an `Option`-returning
  function.
-/

namespace Nuketown

/-! ## Orchestrator data model (`daemon.py`) -/

/-- `State` enum from `daemon.py`: daemon phases. -/
inductive DState
  | idle
  | working
  | blocked
deriving DecidableEq

/-- The string `value` of a `State` member (`State.IDLE.value` etc.). -/
def DState.value : DState → String
  | .idle => "idle"
  | .working => "working"
  | .blocked => "blocked"

/-- `TaskRequest` dataclass from `daemon.py`. -/
structure TaskRequest where
  project : String
  prompt : String := ""
  branch : String := ""
  mode : String := ""
  source : String := ""
  reply_to : String := ""
deriving DecidableEq

/-- `DaemonState` dataclass from `daemon.py`. -/
structure DaemonState where
  state : DState := .idle
  current : Option TaskRequest := none
  queue : List TaskRequest := []
deriving DecidableEq

/-- An incoming JSON request dictionary, restricted to the string keys the
daemon reads (`request.get(...)` in `_handle_task` and `_xmpp_message`).
A `none` field is an absent key. -/
structure ReqData where
  ty : Option String := none
  project : Option String := none
  prompt : Option String := none
  branch : Option String := none
  mode : Option String := none
  source : Option String := none
  reply_to : Option String := none
  from_ : Option String := none
deriving DecidableEq

/-- The `TaskRequest(...)` construction in `Daemon._handle_task`
(lines 293-300), with each `request.get(key, default)`. -/
def mkTask (r : ReqData) : TaskRequest :=
  { project := r.project.getD ""
    prompt := r.prompt.getD ""
    branch := r.branch.getD ""
    mode := r.mode.getD ""
    source := r.source.getD "socket"
    reply_to := r.reply_to.getD "" }

/-- The reply dictionary of `Daemon._handle_task`. -/
inductive TaskResponse
  | err (msg : String)
  | queued (position : Nat) (current : String)
  | accepted (project : String)
deriving DecidableEq

/-- Result of one `_handle_task` call: the daemon state afterwards, the
reply returned to the caller, and whether `asyncio.create_task` spawned a
worker for the request. -/
structure SubmitResult where
  state : DaemonState
  reply : TaskResponse
  workerStarted : Bool
deriving DecidableEq

/-- `Daemon._handle_task` (daemon.py lines 288-314). -/
def handleTask (s : DaemonState) (r : ReqData) : SubmitResult :=
  let project := r.project.getD ""
  if project = "" then
    ⟨s, .err "missing 'project' field", false⟩
  else
    let task := mkTask r
    if s.state = .working then
      ⟨{ s with queue := s.queue ++ [task] },
       .queued (s.queue ++ [task]).length
         ((s.current.map TaskRequest.project).getD ""),
       false⟩
    else
      ⟨{ s with state := .working, current := some task },
       .accepted task.project, true⟩

/-- The `finally` block of `Daemon._process_task` (daemon.py lines
361-373): clear `current`, then either pop the queue head as the next
current task (spawning a worker, returned `true`) or go idle. -/
def completeTask (s : DaemonState) : DaemonState × Bool :=
  let s0 : DaemonState := { s with current := none }
  match s0.queue with
  | next :: rest =>
      ({ s0 with state := .working, current := some next, queue := rest }, true)
  | [] =>
      ({ s0 with state := .idle }, false)

/-- `Daemon._status_response` (daemon.py lines 278-286), as a read that
returns the state unchanged together with the reply fields (the `xmpp`
field depends on the external client object and is omitted). -/
def statusOp (s : DaemonState) :
    DaemonState × String × Option String × Option Nat :=
  (s, s.state.value,
   s.current.map TaskRequest.project,
   if s.queue.length ≠ 0 then some s.queue.length else none)

/-- Fold a list of task submissions through `_handle_task`, keeping only
the evolving daemon state. -/
def submitMany (s : DaemonState) (rs : List ReqData) : DaemonState :=
  rs.foldl (fun s r => (handleTask s r).state) s

/-- The sequence of tasks that become `current` when `_process_task`
completions fire one after another, until the daemon goes idle.
Fuel-indexed helper: the fuel is the queue length. -/
def dequeueSeqGo : Nat → DaemonState → List TaskRequest
  | 0, _ => []
  | n + 1, s =>
      let s' := (completeTask s).1
      match s'.current with
      | some t => t :: dequeueSeqGo n s'
      | none => []

/-- The order in which queued tasks get executed by successive
completions of `_process_task`. -/
def dequeueSeq (s : DaemonState) : List TaskRequest :=
  dequeueSeqGo s.queue.length s

/-- The state invariant of claim C2: the `current` slot is occupied
exactly when the phase is `working`. -/
def stateInv (s : DaemonState) : Prop :=
  s.current.isSome ↔ s.state = .working

instance (s : DaemonState) : Decidable (stateInv s) := by
  unfold stateInv; infer_instance

/-! ## Orchestrator lemmas -/

lemma handleTask_working (s : DaemonState) (r : ReqData)
    (hw : s.state = .working) (hv : r.project.getD "" ≠ "") :
    handleTask s r =
      ⟨{ s with queue := s.queue ++ [mkTask r] },
       .queued (s.queue.length + 1) ((s.current.map TaskRequest.project).getD ""),
       false⟩ := by
  simp [handleTask, hv, hw]

lemma handleTask_not_working (s : DaemonState) (r : ReqData)
    (hw : s.state ≠ .working) (hv : r.project.getD "" ≠ "") :
    handleTask s r =
      ⟨{ s with state := .working, current := some (mkTask r) },
       .accepted (mkTask r).project, true⟩ := by
  simp [handleTask, hv, hw]

lemma handleTask_invalid (s : DaemonState) (r : ReqData)
    (hv : r.project.getD "" = "") :
    handleTask s r = ⟨s, .err "missing 'project' field", false⟩ := by
  simp [handleTask, hv]

lemma submitMany_working (s : DaemonState) (rs : List ReqData)
    (hw : s.state = .working) (hv : ∀ r ∈ rs, r.project.getD "" ≠ "") :
    submitMany s rs = { s with queue := s.queue ++ rs.map mkTask } := by
  induction rs generalizing s with
  | nil => simp [submitMany]
  | cons r rest ih =>
      have hr : r.project.getD "" ≠ "" := hv r (by simp)
      have step := handleTask_working s r hw hr
      simp only [submitMany, List.foldl_cons] at *
      rw [step]
      have := ih { s with queue := s.queue ++ [mkTask r] } hw
        (fun r' hr' => hv r' (by simp [hr']))
      simp only [submitMany] at this
      rw [this]
      simp

lemma dequeueSeqGo_eq_queue :
    ∀ (q : List TaskRequest) (s : DaemonState), s.queue = q →
      dequeueSeqGo q.length s = q := by
  intro q
  induction q with
  | nil => intro s _; simp [dequeueSeqGo]
  | cons t rest ih =>
      intro s hq
      have hc : (completeTask s).1 =
          { state := .working, current := some t, queue := rest } := by
        simp [completeTask, hq]
      simp only [List.length_cons, dequeueSeqGo, hc]
      exact congrArg (t :: ·) (ih _ rfl)

lemma dequeueSeq_eq_queue (s : DaemonState) : dequeueSeq s = s.queue :=
  dequeueSeqGo_eq_queue s.queue s rfl

/-! ## Claim theorems: orchestrator -/

/-- C1: a task submission while the phase is `working` appends the request
to the queue and replies `queued` with 1-based position equal to the queue
length after the append, naming the current task's project; any other
phase transitions to `working` with `current` set to the request, starts a
worker, and replies `accepted` with the project; and every sequence of
submissions made while `working` is dequeued and executed in submission
(FIFO) order, after the previously queued tasks. -/
theorem submit_queued_accepted_fifo (s : DaemonState) (r : ReqData)
    (c : TaskRequest) (rs : List ReqData)
    (hv : r.project.getD "" ≠ "") :
    (s.state = .working → s.current = some c →
      handleTask s r =
        ⟨{ s with queue := s.queue ++ [mkTask r] },
         .queued (s.queue.length + 1) c.project, false⟩ ∧
      s.queue.length + 1 = (s.queue ++ [mkTask r]).length) ∧
    (s.state ≠ .working →
      handleTask s r =
        ⟨{ s with state := .working, current := some (mkTask r) },
         .accepted (mkTask r).project, true⟩) ∧
    (s.state = .working → (∀ r' ∈ rs, r'.project.getD "" ≠ "") →
      dequeueSeq (submitMany s rs) = s.queue ++ rs.map mkTask) := by
  refine ⟨fun hw hc => ?_, fun hw => handleTask_not_working s r hw hv,
    fun hw hv' => ?_⟩
  · rw [handleTask_working s r hw hv, hc]
    simp
  · rw [submitMany_working s rs hw hv', dequeueSeq_eq_queue]

/-- C1 witness. -/
theorem submit_queued_accepted_fifo_witness :
    (({ project := some "p2" } : ReqData).project.getD "" ≠ "") ∧
    (let c : TaskRequest := { project := "p1" }
     let s : DaemonState := { state := .working, current := some c, queue := [] }
     let r : ReqData := { project := some "p2" }
     let rs : List ReqData := [{ project := some "p3" }, { project := some "p4" }]
     (s.state = .working → s.current = some c →
       handleTask s r =
         ⟨{ s with queue := s.queue ++ [mkTask r] },
          .queued (s.queue.length + 1) c.project, false⟩ ∧
       s.queue.length + 1 = (s.queue ++ [mkTask r]).length) ∧
     (s.state ≠ .working →
       handleTask s r =
         ⟨{ s with state := .working, current := some (mkTask r) },
          .accepted (mkTask r).project, true⟩) ∧
     (s.state = .working → (∀ r' ∈ rs, r'.project.getD "" ≠ "") →
       dequeueSeq (submitMany s rs) = s.queue ++ rs.map mkTask)) :=
  ⟨by decide,
   submit_queued_accepted_fifo
     { state := .working, current := some { project := "p1" }, queue := [] }
     { project := some "p2" } { project := "p1" }
     [{ project := some "p3" }, { project := some "p4" }] (by decide)⟩

/-- C2: the invariant "`current` is non-empty iff phase is `working`" is
preserved by submission and by task completion; the status read leaves the
state untouched; and the queue is only ever left unchanged or appended to
by a submission, and is popped from the front by a completion. -/
theorem daemon_state_invariant (s : DaemonState) (r : ReqData)
    (hinv : stateInv s) :
    stateInv (handleTask s r).state ∧
    stateInv (completeTask s).1 ∧
    (statusOp s).1 = s ∧
    ((handleTask s r).state.queue = s.queue ∨
     (handleTask s r).state.queue = s.queue ++ [mkTask r]) ∧
    (completeTask s).1.queue = s.queue.tail := by
  refine ⟨?_, ?_, rfl, ?_, ?_⟩
  · by_cases hv : r.project.getD "" = ""
    · rw [handleTask_invalid s r hv]; exact hinv
    · by_cases hw : s.state = .working
      · rw [handleTask_working s r hw hv]
        simpa [stateInv, hw] using hinv
      · rw [handleTask_not_working s r hw hv]
        simp [stateInv]
  · cases hq : s.queue with
    | nil => simp [stateInv, completeTask, hq]
    | cons t rest => simp [stateInv, completeTask, hq]
  · by_cases hv : r.project.getD "" = ""
    · rw [handleTask_invalid s r hv]; left; rfl
    · by_cases hw : s.state = .working
      · rw [handleTask_working s r hw hv]; right; rfl
      · rw [handleTask_not_working s r hw hv]; left; rfl
  · cases hq : s.queue with
    | nil => simp [completeTask, hq]
    | cons t rest => simp [completeTask, hq]

/-- C2 witness. -/
theorem daemon_state_invariant_witness :
    (let s : DaemonState :=
       { state := .working, current := some { project := "p1" }, queue := [] }
     let r : ReqData := { project := some "p2" }
     stateInv s ∧
     (stateInv (handleTask s r).state ∧
      stateInv (completeTask s).1 ∧
      (statusOp s).1 = s ∧
      ((handleTask s r).state.queue = s.queue ∨
       (handleTask s r).state.queue = s.queue ++ [mkTask r]) ∧
      (completeTask s).1.queue = s.queue.tail)) :=
  ⟨by decide,
   daemon_state_invariant
     { state := .working, current := some { project := "p1" }, queue := [] }
     { project := some "p2" } (by decide)⟩

/-- C10: a submission with a missing or empty `project` field is answered
with the error `missing 'project' field`, the daemon state is returned
unchanged, and no worker is started. -/
theorem missing_project_rejected (s : DaemonState) (r : ReqData)
    (hv : r.project.getD "" = "") :
    handleTask s r = ⟨s, .err "missing 'project' field", false⟩ :=
  handleTask_invalid s r hv

/-- C10 witness. -/
theorem missing_project_rejected_witness :
    (({ } : ReqData).project.getD "" = "") ∧
    handleTask { state := .idle, current := none, queue := [] } { } =
      ⟨{ state := .idle, current := none, queue := [] },
       .err "missing 'project' field", false⟩ :=
  ⟨by decide,
   missing_project_rejected { state := .idle, current := none, queue := [] }
     { } (by decide)⟩

/-! ## Approval correlator (`xmpp/approval.py`)

`ApprovalManager._pending` is a dict from correlation id to an
`asyncio.Future[str]`.  A future is modelled as `Option String`: `none`
is an unresolved future, `some r` a future resolved with `r`.  The dict
is an insertion-ordered association list with unique keys. -/

/-- A pending approval slot: `none` = unresolved, `some r` = resolved. -/
abbrev Slot := Option String

/-- The `_pending` dict of `ApprovalManager`. -/
abbrev PendingTable := List (String × Slot)

/-- Dict lookup: `self._pending.get(request_id)`. -/
def lookupSlot : PendingTable → String → Option Slot
  | [], _ => none
  | (k, v) :: rest, i => if k = i then some v else lookupSlot rest i

/-- In-place resolution of an existing future (`future.set_result`). -/
def setSlot : PendingTable → String → Slot → PendingTable
  | [], _, _ => []
  | (k, v) :: rest, i, w => if k = i then (k, w) :: rest else (k, v) :: setSlot rest i w

/-- Dict removal: `self._pending.pop(request_id, None)`. -/
def eraseKey : PendingTable → String → PendingTable
  | [], _ => []
  | (k, v) :: rest, i => if k = i then rest else (k, v) :: eraseKey rest i

/-- `ApprovalManager.handle_response` (approval.py lines 93-116): unknown
id → return unchanged; already-resolved future → return unchanged;
unresolved future → resolve it with `result`. -/
def handleResponse (t : PendingTable) (request_id result : String) : PendingTable :=
  match lookupSlot t request_id with
  | none => t
  | some (some _) => t
  | some none => setSlot t request_id (some result)

/-- The registration step of `ApprovalManager.request` (line 59):
`self._pending[request_id] = future` with a fresh unresolved future. -/
def registerRequest (t : PendingTable) (request_id : String) : PendingTable :=
  t ++ [(request_id, none)]

/-- The approval responses delivered (each via `handle_response`) while a
request waits, in delivery order. -/
def applyResponses (t : PendingTable) (es : List (String × String)) : PendingTable :=
  es.foldl (fun t e => handleResponse t e.1 e.2) t

/-- `ApprovalManager.request` (approval.py lines 35-91), as a function of
the responses delivered before its deadline: register the fresh id, let
the delivered responses act on the table, read the future (`wait_for`
returns its value if it was resolved, else raises `TimeoutError` and the
code returns `False`), and in all cases pop the id in the `finally`.
Returns the boolean result and the final pending table. -/
def requestRun (t : PendingTable) (request_id : String)
    (es : List (String × String)) : Bool × PendingTable :=
  let t2 := applyResponses (registerRequest t request_id) es
  let approved :=
    match lookupSlot t2 request_id with
    | some (some result) => result == "approved"
    | _ => false
  (approved, eraseKey t2 request_id)

/-! ## Approval lemmas -/

lemma lookupSlot_setSlot_self (t : PendingTable) (i : String) (w v : Slot)
    (h : lookupSlot t i = some w) :
    lookupSlot (setSlot t i v) i = some v := by
  induction t with
  | nil => simp [lookupSlot] at h
  | cons e rest ih =>
      by_cases hk : e.1 = i
      · simp [setSlot, lookupSlot, hk]
      · simp [setSlot, lookupSlot, hk] at h ⊢
        exact ih h

lemma lookupSlot_setSlot_ne (t : PendingTable) (i j : String) (v : Slot)
    (h : j ≠ i) : lookupSlot (setSlot t i v) j = lookupSlot t j := by
  induction t with
  | nil => simp [setSlot]
  | cons e rest ih =>
      by_cases hk : e.1 = i
      · subst hk
        simp [setSlot, lookupSlot, Ne.symm h]
      · by_cases hj : e.1 = j <;> simp [setSlot, lookupSlot, hk, hj, ih, h]

lemma setSlot_keys (t : PendingTable) (i : String) (v : Slot) :
    (setSlot t i v).map Prod.fst = t.map Prod.fst := by
  induction t with
  | nil => simp [setSlot]
  | cons e rest ih =>
      by_cases hk : e.1 = i <;> simp [setSlot, hk, ih]

lemma handleResponse_keys (t : PendingTable) (i r : String) :
    (handleResponse t i r).map Prod.fst = t.map Prod.fst := by
  unfold handleResponse
  cases lookupSlot t i with
  | none => rfl
  | some w => cases w with
      | none => exact setSlot_keys t i (some r)
      | some v => rfl

lemma applyResponses_keys (t : PendingTable) (es : List (String × String)) :
    (applyResponses t es).map Prod.fst = t.map Prod.fst := by
  induction es generalizing t with
  | nil => rfl
  | cons e rest ih =>
      simpa [applyResponses, handleResponse_keys] using
        (ih (handleResponse t e.1 e.2)).trans (handleResponse_keys t e.1 e.2)

lemma handleResponse_unknown (t : PendingTable) (i r : String)
    (h : lookupSlot t i = none) : handleResponse t i r = t := by
  simp [handleResponse, h]

lemma handleResponse_already_resolved (t : PendingTable) (i r v : String)
    (h : lookupSlot t i = some (some v)) : handleResponse t i r = t := by
  simp [handleResponse, h]

lemma handleResponse_lookup_ne (t : PendingTable) (i j r : String)
    (h : j ≠ i) : lookupSlot (handleResponse t i r) j = lookupSlot t j := by
  unfold handleResponse
  cases hl : lookupSlot t i with
  | none => rfl
  | some w => cases w with
      | none => exact lookupSlot_setSlot_ne t i j (some r) h
      | some v => rfl

lemma handleResponse_resolves (t : PendingTable) (i r : String)
    (h : lookupSlot t i = some none) :
    lookupSlot (handleResponse t i r) i = some (some r) := by
  simp only [handleResponse, h]
  exact lookupSlot_setSlot_self t i none (some r) h

lemma applyResponses_resolved_stable (t : PendingTable) (i v : String)
    (es : List (String × String)) (h : lookupSlot t i = some (some v)) :
    lookupSlot (applyResponses t es) i = some (some v) := by
  induction es generalizing t with
  | nil => exact h
  | cons e rest ih =>
      simp only [applyResponses, List.foldl_cons]
      by_cases he : e.1 = i
      · subst he
        rw [handleResponse_already_resolved t e.1 e.2 v h]
        exact ih t h
      · exact ih _ ((handleResponse_lookup_ne t e.1 i e.2 (Ne.symm he)).trans h)

/-- The future's final value is the first delivered response that targets
the id (later ones are no-ops), or still-unresolved when none does. -/
lemma applyResponses_unresolved (t : PendingTable) (i : String)
    (es : List (String × String)) (h : lookupSlot t i = some none) :
    lookupSlot (applyResponses t es) i =
      some ((es.find? (fun e => e.1 == i)).map Prod.snd) := by
  induction es generalizing t with
  | nil => simpa using h
  | cons e rest ih =>
      simp only [applyResponses, List.foldl_cons]
      by_cases he : e.1 = i
      · subst he
        rw [List.find?_cons_of_pos _ (by simp)]
        exact applyResponses_resolved_stable _ e.1 e.2 rest
          (handleResponse_resolves t e.1 e.2 h)
      · rw [List.find?_cons_of_neg _ (by simp [he])]
        exact ih _ ((handleResponse_lookup_ne t e.1 i e.2 (Ne.symm he)).trans h)

lemma lookupSlot_append_fresh (t : PendingTable) (i : String)
    (h : lookupSlot t i = none) :
    lookupSlot (registerRequest t i) i = some none := by
  induction t with
  | nil => simp [registerRequest, lookupSlot]
  | cons e rest ih =>
      by_cases hk : e.1 = i
      · simp [lookupSlot, hk] at h
      · simp only [lookupSlot, hk, if_neg hk] at h ⊢
        simpa [registerRequest, lookupSlot, hk] using ih h

lemma lookupSlot_none_iff (t : PendingTable) (i : String) :
    lookupSlot t i = none ↔ i ∉ t.map Prod.fst := by
  induction t with
  | nil => simp [lookupSlot]
  | cons e rest ih =>
      by_cases hk : e.1 = i
      · simp [lookupSlot, hk]
      · simp [lookupSlot, hk, ih, Ne.symm hk]

lemma eraseKey_length (t : PendingTable) (i : String) (w : Slot)
    (h : lookupSlot t i = some w) :
    (eraseKey t i).length + 1 = t.length := by
  induction t with
  | nil => simp [lookupSlot] at h
  | cons e rest ih =>
      by_cases hk : e.1 = i
      · simp [eraseKey, hk]
      · simp only [lookupSlot, hk, if_neg hk] at h
        simp [eraseKey, hk, ih h]

lemma eraseKey_lookup_of_count_le_one (t : PendingTable) (i : String)
    (h : (t.map Prod.fst).count i ≤ 1) :
    lookupSlot (eraseKey t i) i = none := by
  induction t with
  | nil => simp [eraseKey, lookupSlot]
  | cons e rest ih =>
      by_cases hk : e.1 = i
      · simp only [eraseKey, if_pos hk]
        rw [lookupSlot_none_iff]
        intro hmem
        have h1 : 0 < (rest.map Prod.fst).count i := List.count_pos_iff.mpr hmem
        simp only [List.map_cons, List.count_cons, hk, beq_self_eq_true,
          if_true] at h
        omega
      · simp only [eraseKey, if_neg hk, lookupSlot, if_neg hk]
        apply ih
        simp only [List.map_cons, List.count_cons] at h
        omega

/-! ## Claim theorem: approval correlator -/

/-- C3: an approval request with a fresh correlation id returns `true`
exactly when the first delivered response for its id is `"approved"`
(`false` on explicit denial and on timeout); on every exit path the id's
slot is gone and the pending count is back to its prior value.
`handle_response` on an unknown id, or on an id whose future is already
resolved, changes nothing; and resolving one id never affects a
different id's slot. -/
theorem approval_request_resolution (t t0 : PendingTable)
    (request_id i j r v : String) (es : List (String × String))
    (hfresh : lookupSlot t request_id = none) :
    ((requestRun t request_id es).1 = true ↔
      (es.find? (fun e => e.1 == request_id)).map Prod.snd = some "approved") ∧
    lookupSlot (requestRun t request_id es).2 request_id = none ∧
    (requestRun t request_id es).2.length = t.length ∧
    (lookupSlot t0 i = none → handleResponse t0 i r = t0) ∧
    (lookupSlot t0 i = some (some v) → handleResponse t0 i r = t0) ∧
    (j ≠ i → lookupSlot (handleResponse t0 i r) j = lookupSlot t0 j) := by
  have hreg : lookupSlot (registerRequest t request_id) request_id = some none :=
    lookupSlot_append_fresh t request_id hfresh
  have hval := applyResponses_unresolved (registerRequest t request_id)
    request_id es hreg
  have hkeys : (applyResponses (registerRequest t request_id) es).map Prod.fst =
      t.map Prod.fst ++ [request_id] := by
    rw [applyResponses_keys]
    simp [registerRequest]
  refine ⟨?_, ?_, ?_, handleResponse_unknown t0 i r,
    fun h => handleResponse_already_resolved t0 i r v h,
    fun h => handleResponse_lookup_ne t0 i j r h⟩
  · simp only [requestRun, hval]
    cases (es.find? (fun e => e.1 == request_id)).map Prod.snd with
    | none => simp
    | some res => simp [beq_iff_eq]
  · simp only [requestRun]
    apply eraseKey_lookup_of_count_le_one
    rw [hkeys]
    have : request_id ∉ t.map Prod.fst := (lookupSlot_none_iff t request_id).mp hfresh
    simp [List.count_append, List.count_eq_zero.mpr this]
  · simp only [requestRun]
    have := eraseKey_length (applyResponses (registerRequest t request_id) es)
      request_id _ hval
    have hlen : (applyResponses (registerRequest t request_id) es).length =
        t.length + 1 := by
      have := congrArg List.length hkeys
      simpa using this
    omega

/-- C3 witness. -/
theorem approval_request_resolution_witness :
    (lookupSlot [("zz", some "denied")] "ab12" = none) ∧
    ((requestRun [("zz", some "denied")] "ab12" [("ab12", "approved"), ("ab12", "denied")]).1 = true ↔
      (([("ab12", "approved"), ("ab12", "denied")] : List (String × String)).find?
        (fun e => e.1 == "ab12")).map Prod.snd = some "approved") ∧
    lookupSlot (requestRun [("zz", some "denied")] "ab12"
      [("ab12", "approved"), ("ab12", "denied")]).2 "ab12" = none ∧
    (requestRun [("zz", some "denied")] "ab12"
      [("ab12", "approved"), ("ab12", "denied")]).2.length =
      ([("zz", some "denied")] : PendingTable).length ∧
    (lookupSlot [("cd", (none : Slot))] "xx" = none →
      handleResponse [("cd", (none : Slot))] "xx" "approved" = [("cd", (none : Slot))]) ∧
    (lookupSlot [("cd", (none : Slot))] "xx" = some (some "denied") →
      handleResponse [("cd", (none : Slot))] "xx" "approved" = [("cd", (none : Slot))]) ∧
    ("cd" ≠ "xx" →
      lookupSlot (handleResponse [("cd", (none : Slot))] "xx" "approved") "cd" =
        lookupSlot [("cd", (none : Slot))] "cd") :=
  ⟨by decide,
   approval_request_resolution [("zz", some "denied")] [("cd", (none : Slot))]
     "ab12" "xx" "cd" "approved" "denied"
     [("ab12", "approved"), ("ab12", "denied")] (by decide)⟩

/-! ## Mail authentication parsing (`mail.py`)

Python strings are sequences of code points; they are embedded as
`List Char` (wrapped back into `String` at structure boundaries), with
each Python string primitive implemented structurally so that concrete
runs reduce. -/

/-- `AuthResult` dataclass from `mail.py`. -/
structure AuthResult where
  dkim : String := ""
  spf : String := ""
  dmarc : String := ""
  from_domain : String := ""
deriving DecidableEq

/-- `AuthResult.trusted` property (mail.py lines 35-43). -/
def AuthResult.trusted (a : AuthResult) : Bool :=
  a.dkim == "pass" || a.spf == "pass"

/-- Python `s.lower()` (ASCII case mapping). -/
def pyLower (s : List Char) : List Char := s.map Char.toLower

/-- Python `s.strip()`. -/
def pyStrip (s : List Char) : List Char :=
  ((s.dropWhile Char.isWhitespace).reverse.dropWhile Char.isWhitespace).reverse

/-- Python `pat in s` (substring containment). -/
def containsSeq (pat s : List Char) : Bool :=
  s.tails.any (fun t => pat.isPrefixOf t)

/-- Python `s.split()[0]`: the first whitespace-delimited token, `none`
when there is none (where Python raises `IndexError`). -/
def firstTok (s : List Char) : Option (List Char) :=
  let s' := s.dropWhile Char.isWhitespace
  if s'.isEmpty then none
  else some (s'.takeWhile (fun c => !(Char.isWhitespace c)))

/-- The body of the `for part in ar_lower.split(";")` loop of
`_parse_auth_results` for one field: a clause starting with `<field>=`
overwrites the accumulator with
`part.split("=", 1)[1].split()[0].strip()`; other clauses leave it.
`none` models the `IndexError` on a `<field>=` clause with nothing
after the `=`. -/
def clauseStep (field : List Char) (acc part : List Char) : Option (List Char) :=
  let p := pyStrip part
  if (field ++ ['=']).isPrefixOf p then
    (firstTok (p.drop (field.length + 1))).map pyStrip
  else some acc

/-- One guarded field-extraction pass of `_parse_auth_results` over one
`Authentication-Results` header value (already a single header; the
lowering happens in `scanHeader`): run the clause loop only when the
header contains `<field>=` and the field is still unset. -/
def scanHeaderField (field cur arLower : List Char) : Option (List Char) :=
  if containsSeq (field ++ ['=']) arLower && cur.isEmpty then
    (arLower.splitOn ';').foldlM (clauseStep field) cur
  else some cur

/-- One iteration of the `for ar_header in msg.get_all(...)` loop of
`_parse_auth_results` (mail.py lines 125-144): lower-case the header and
run the three guarded field extractions. -/
def scanHeader (auth : AuthResult) (header : String) : Option AuthResult := do
  let arLower := pyLower header.data
  let dkim ← scanHeaderField "dkim".data auth.dkim.data arLower
  let spf ← scanHeaderField "spf".data auth.spf.data arLower
  let dmarc ← scanHeaderField "dmarc".data auth.dmarc.data arLower
  pure { auth with dkim := ⟨dkim⟩, spf := ⟨spf⟩, dmarc := ⟨dmarc⟩ }

/-- The `From`-domain extraction of `_parse_auth_results` (mail.py lines
117-122): `from_addr.rsplit("<", 1)[-1].rstrip(">").strip()`, then the
lower-cased part after the first `@`. -/
def parseFromDomain (fromAddr : String) : String :=
  if containsSeq ['@'] fromAddr.data then
    let afterLt := (fromAddr.data.splitOn '<').getLastD []
    let addrPart := pyStrip ((afterLt.reverse.dropWhile (fun c => c = '>')).reverse)
    if containsSeq ['@'] addrPart then
      ⟨pyLower ((addrPart.dropWhile (fun c => c ≠ '@')).drop 1)⟩
    else ""
  else ""

/-- `_parse_auth_results` (mail.py lines 105-146), over the `From` header
value and the list of `Authentication-Results` header values in message
order.  `none` models an uncaught `IndexError`. -/
def parseAuthResults (fromHeader : String) (arHeaders : List String) :
    Option AuthResult :=
  arHeaders.foldlM scanHeader { from_domain := parseFromDomain fromHeader }

/-- The field extraction as claim C4 words it: take the first occurrence
of `<field>=` across the header occurrences scanned in order,
case-insensitively, and keep the first whitespace-delimited token after
the `=`. -/
def specFieldFirstMatch (field : List Char) (arHeaders : List String) : String :=
  match arHeaders.findSome? (fun h =>
      ((pyLower h.data).tails.find? (fun t => (field ++ ['=']).isPrefixOf t)).bind
        (fun t => firstTok (t.drop (field.length + 1)))) with
  | some tok => ⟨tok⟩
  | none => ""

/-- The token a clause contributes: `none` = clause does not start with
`<field>=`; `some none` = matching clause on which Python raises;
`some (some t)` = matching clause with token `t`. -/
def clauseTok (field part : List Char) : Option (Option (List Char)) :=
  let p := pyStrip part
  if (field ++ ['=']).isPrefixOf p then
    some ((firstTok (p.drop (field.length + 1))).map pyStrip)
  else none

/-- The tokens of the matching clauses of a clause list, in order. -/
def matchingToks (field : List Char) (ps : List (List Char)) : List (List Char) :=
  ps.filterMap (fun p => (clauseTok field p).bind id)

/-! ## Mail parsing lemmas -/

/-- Within one header, each matching clause overwrites the field: when no
clause raises, the clause loop yields the last matching clause's token. -/
lemma clause_fold_last (field : List Char) (ps : List (List Char))
    (acc : List Char) (hnc : ∀ p ∈ ps, clauseTok field p ≠ some none) :
    ps.foldlM (clauseStep field) acc =
      some ((matchingToks field ps).getLastD acc) := by
  induction ps generalizing acc with
  | nil => simp [matchingToks]
  | cons p rest ih =>
      have hp := hnc p (by simp)
      by_cases hm : (field ++ ['=']).isPrefixOf (pyStrip p)
      · cases htok : (firstTok ((pyStrip p).drop (field.length + 1))).map pyStrip with
        | none => exact absurd (by simp [clauseTok, hm, htok]) hp
        | some t =>
            have hstep : clauseStep field acc p = some t := by
              simp [clauseStep, hm, htok]
            have htk : clauseTok field p = some (some t) := by
              simp [clauseTok, hm, htok]
            have hmt : matchingToks field (p :: rest) = t :: matchingToks field rest := by
              simp [matchingToks, htk]
            simp only [List.foldlM_cons, hstep, Option.bind_eq_bind,
              Option.some_bind]
            rw [ih t (fun q hq => hnc q (by simp [hq])), hmt, List.getLastD_cons]
      · have hstep : clauseStep field acc p = some acc := by
          simp [clauseStep, hm]
        have htk : clauseTok field p = none := by
          simp [clauseTok, hm]
        have hmt : matchingToks field (p :: rest) = matchingToks field rest := by
          simp [matchingToks, htk]
        simp only [List.foldlM_cons, hstep, Option.bind_eq_bind,
          Option.some_bind]
        rw [ih acc (fun q hq => hnc q (by simp [hq])), hmt]

/-- Once a field is set, a later header never changes it. -/
lemma scanHeaderField_set (field cur arLower : List Char) (h : cur ≠ []) :
    scanHeaderField field cur arLower = some cur := by
  simp [scanHeaderField, List.isEmpty_iff, h]

/-! ## Claim theorems: mail authentication parsing -/

/-- C4 counterexample: on the single header
`"mx; dkim=pass header.d=a; dkim=fail header.d=b"` the code keeps the
LAST `dkim=` clause of the header (`"fail"`), not the first match
(`"pass"`) as the claim states, and the two verdicts disagree on
trustedness. -/
theorem auth_first_match_counterexample :
    parseAuthResults "a@b.com"
        ["mx; dkim=pass header.d=a; dkim=fail header.d=b"] =
      some { dkim := "fail", spf := "", dmarc := "", from_domain := "b.com" } ∧
    specFieldFirstMatch "dkim".data
        ["mx; dkim=pass header.d=a; dkim=fail header.d=b"] = "pass" ∧
    AuthResult.trusted { dkim := "fail" } = false ∧
    AuthResult.trusted { dkim := "pass" } = true ∧
    ("fail" : String) ≠ "pass" := by decide

/-- C4 amended: the scan is case-insensitive over all header occurrences
and a message is trusted iff the dkim or spf verdict equals `"pass"`, but
per field the clauses of one header are folded left with later matching
clauses overwriting earlier ones — within a header the LAST
`;`-separated clause starting with `<field>=` wins (its first
whitespace-delimited token), while a field once set is never changed by
later headers. -/
theorem auth_parse_amended (a : AuthResult) (field cur arLower : List Char)
    (ps : List (List Char)) (acc : List Char)
    (hcur : cur ≠ [])
    (hnc : ∀ p ∈ ps, clauseTok field p ≠ some none)
    (hnc2 : ∀ p ∈ arLower.splitOn ';', clauseTok field p ≠ some none) :
    (a.trusted = true ↔ (a.dkim = "pass" ∨ a.spf = "pass")) ∧
    scanHeaderField field cur arLower = some cur ∧
    ps.foldlM (clauseStep field) acc =
      some ((matchingToks field ps).getLastD acc) ∧
    (containsSeq (field ++ ['=']) arLower = true →
      scanHeaderField field [] arLower =
        some ((matchingToks field (arLower.splitOn ';')).getLastD [])) ∧
    (containsSeq (field ++ ['=']) arLower = false →
      scanHeaderField field [] arLower = some []) := by
  refine ⟨?_, scanHeaderField_set field cur arLower hcur,
    clause_fold_last field ps acc hnc, fun hc => ?_, fun hc => ?_⟩
  · simp [AuthResult.trusted, Bool.or_eq_true, beq_iff_eq]
  · simp only [scanHeaderField, hc, List.isEmpty_nil, Bool.and_self, if_true]
    exact clause_fold_last field _ [] hnc2
  · simp [scanHeaderField, hc]

/-- C4 amended witness. -/
theorem auth_parse_amended_witness :
    (let a : AuthResult := { dkim := "pass" }
     let field := "dkim".data
     let cur := ['x']
     let arLower := "dkim=a".data
     let ps : List (List Char) := []
     let acc : List Char := []
     cur ≠ [] ∧
     (∀ p ∈ ps, clauseTok field p ≠ some none) ∧
     (∀ p ∈ arLower.splitOn ';', clauseTok field p ≠ some none) ∧
     ((a.trusted = true ↔ (a.dkim = "pass" ∨ a.spf = "pass")) ∧
      scanHeaderField field cur arLower = some cur ∧
      ps.foldlM (clauseStep field) acc =
        some ((matchingToks field ps).getLastD acc) ∧
      (containsSeq (field ++ ['=']) arLower = true →
        scanHeaderField field [] arLower =
          some ((matchingToks field (arLower.splitOn ';')).getLastD [])) ∧
      (containsSeq (field ++ ['=']) arLower = false →
        scanHeaderField field [] arLower = some []))) :=
  ⟨by decide, by decide, by decide,
   auth_parse_amended { dkim := "pass" } "dkim".data ['x'] "dkim=a".data []
     [] (by decide) (by decide) (by decide)⟩

/-! ## Reconnect backoff (`mail.py` and `xmpp/client.py`) -/

/-- `delay = min(delay * 2, max_delay)` with `max_delay = 300`. -/
def nextDelay (d : Nat) : Nat := min (d * 2) 300

/-- The sleeps of the `while not self._stopping` loop of
`MailWatcher.run` (mail.py lines 170-189).  One list entry per completed
`_connect_and_idle` attempt: `true` = a session was established and later
ended, `false` = the attempt failed.  `delay` is initialised once, before
the loop; after every attempt the watcher sleeps `delay` and then doubles
it, regardless of the attempt's outcome. -/
def mailWatcherDelaysGo : Nat → List Bool → List Nat
  | _, [] => []
  | d, _ :: rest => d :: mailWatcherDelaysGo (nextDelay d) rest

/-- The reconnect sleeps of one `MailWatcher.run` call, in order
(`delay = 5.0` at entry). -/
def mailRunDelays (outcomes : List Bool) : List Nat :=
  mailWatcherDelaysGo 5 outcomes

/-- `AgentXMPPClient._reconnect` (client.py lines 133-146): one reconnect
episode sleeping before each attempt and doubling after each failed one,
returning on the first success.  The list holds the sleeps for `failures`
failed attempts followed by the successful one. -/
def xmppReconnectDelaysGo : Nat → Nat → List Nat
  | d, 0 => [d]
  | d, failures + 1 => d :: xmppReconnectDelaysGo (nextDelay d) failures

/-- The sleeps of one `_reconnect()` call (`delay = 5` default). -/
def xmppReconnectDelays (failures : Nat) : List Nat :=
  xmppReconnectDelaysGo 5 failures

/-! ## Backoff lemmas -/

lemma nextDelay_iterate (i : Nat) :
    nextDelay^[i] 5 = min (5 * 2 ^ i) 300 := by
  induction i with
  | zero => simp [nextDelay]
  | succ n ih =>
      rw [Function.iterate_succ_apply', ih]
      have h2 : 5 * 2 ^ (n + 1) = 2 * (5 * 2 ^ n) := by ring
      unfold nextDelay
      omega

lemma mailWatcherDelaysGo_get? (os : List Bool) (d i : Nat)
    (h : i < os.length) :
    (mailWatcherDelaysGo d os).get? i = some (nextDelay^[i] d) := by
  induction os generalizing d i with
  | nil => simp at h
  | cons o rest ih =>
      cases i with
      | zero => simp [mailWatcherDelaysGo]
      | succ n =>
          simp only [mailWatcherDelaysGo, List.get?_cons_succ]
          rw [ih (nextDelay d) n (by simpa using h),
            ← Function.iterate_succ_apply]

lemma xmppReconnectDelaysGo_get? (failures d i : Nat)
    (h : i < failures + 1) :
    (xmppReconnectDelaysGo d failures).get? i = some (nextDelay^[i] d) := by
  induction failures generalizing d i with
  | zero =>
      interval_cases i
      simp [xmppReconnectDelaysGo]
  | succ n ih =>
      cases i with
      | zero => simp [xmppReconnectDelaysGo]
      | succ m =>
          simp only [xmppReconnectDelaysGo, List.get?_cons_succ]
          rw [ih (nextDelay d) m (by omega), ← Function.iterate_succ_apply]

lemma xmppReconnectDelaysGo_length (failures d : Nat) :
    (xmppReconnectDelaysGo d failures).length = failures + 1 := by
  induction failures generalizing d with
  | zero => rfl
  | succ n ih => simp [xmppReconnectDelaysGo, ih]

/-! ## Claim theorems: reconnect backoff -/

/-- C5 counterexample: after the run fail, success, fail the mail
watcher's third sleep is 20 s, not the 5 s the claim's reset rule
demands; the sleeps do not depend on the outcomes at all. -/
theorem backoff_reset_counterexample :
    mailRunDelays [false, true, false] = [5, 10, 20] ∧
    mailRunDelays [false, false, false] = mailRunDelays [false, true, false] ∧
    (20 : Nat) ≠ 5 := by decide

/-- C5 amended: both supervisors sleep `min (5 * 2 ^ k) 300` seconds
before their `k+1`-th reconnection attempt of a run — 5 s initial,
doubling, capped at 300 s.  A fresh `_reconnect` call of the chat client
starts over at 5 s, but the mail watcher's delay depends only on how many
attempts have completed since the watcher started, not on their
outcomes: it is never reset by a successful connection. -/
theorem backoff_sequence (outcomes : List Bool) (failures i j : Nat)
    (hi : i < outcomes.length) (hj : j < failures + 1) :
    (mailRunDelays outcomes).get? i = some (min (5 * 2 ^ i) 300) ∧
    (xmppReconnectDelays failures).length = failures + 1 ∧
    (xmppReconnectDelays failures).get? j = some (min (5 * 2 ^ j) 300) := by
  refine ⟨?_, xmppReconnectDelaysGo_length failures 5, ?_⟩
  · rw [mailRunDelays, mailWatcherDelaysGo_get? outcomes 5 i hi,
      nextDelay_iterate]
  · rw [xmppReconnectDelays, xmppReconnectDelaysGo_get? failures 5 j hj,
      nextDelay_iterate]

/-- C5 amended witness. -/
theorem backoff_sequence_witness :
    (7 < ([true, false, true, false, false, true, false, true] : List Bool).length) ∧
    (2 < 2 + 1) ∧
    ((mailRunDelays [true, false, true, false, false, true, false, true]).get? 7 =
      some (min (5 * 2 ^ 7) 300) ∧
     (xmppReconnectDelays 2).length = 2 + 1 ∧
     (xmppReconnectDelays 2).get? 2 = some (min (5 * 2 ^ 2) 300)) :=
  ⟨by decide, by decide,
   backoff_sequence [true, false, true, false, false, true, false, true] 2 7 2
     (by decide) (by decide)⟩

/-! ## Socket RPC server (`socket_server.py`) -/

/-- One newline-delimited input line of an RPC connection, as seen after
`json.loads`: either not valid JSON (with the decoder's message) or a
successfully parsed request. -/
inductive RpcLine (α : Type)
  | invalid (detail : String)
  | valid (request : α)
deriving DecidableEq

/-- A JSON response object written back: a dispatcher result or an
`{"error": ...}` object. -/
inductive RpcOut (β : Type)
  | ok (response : β)
  | err (msg : String)
deriving DecidableEq

/-- The per-line handling of `SocketServer._handle_client`
(socket_server.py lines 54-70).  The dispatcher is abstract;
`dispatch a = none` models `await self.dispatch(request)` raising. -/
def handleLine (dispatch : α → Option β) : RpcLine α → RpcOut β
  | .invalid detail => .err ("invalid JSON: " ++ detail)
  | .valid a =>
      match dispatch a with
      | some b => .ok b
      | none => .err "internal error"

/-- The `while True` read loop of `_handle_client`: one response is
written per line, in order, and neither error path leaves the loop; the
loop ends only at EOF (the end of the line list). -/
def handleClientLoop (dispatch : α → Option β) :
    List (RpcLine α) → List (RpcOut β) → List (RpcOut β)
  | [], written => written
  | l :: rest, written =>
      handleClientLoop dispatch rest (written ++ [handleLine dispatch l])

/-- One full client connection: all lines until EOF, no responses
written yet. -/
def handleClient (dispatch : α → Option β) (lines : List (RpcLine α)) :
    List (RpcOut β) :=
  handleClientLoop dispatch lines []

/-! ## Socket server lemmas -/

lemma handleClientLoop_eq_append {α β : Type} (dispatch : α → Option β)
    (lines : List (RpcLine α)) (written : List (RpcOut β)) :
    handleClientLoop dispatch lines written =
      written ++ lines.map (handleLine dispatch) := by
  induction lines generalizing written with
  | nil => simp [handleClientLoop]
  | cons l rest ih => simp [handleClientLoop, ih]

/-! ## Claim theorem: socket RPC server -/

/-- C6: every line gets exactly one response, in arrival order; a
malformed line is answered with `invalid JSON: <detail>` and the loop
continues with the remaining lines; a dispatcher exception is answered
with `internal error`; in both cases every later request on the same
connection is still answered at its own position. -/
theorem rpc_errors_keep_connection {α β : Type} (dispatch : α → Option β)
    (lines : List (RpcLine α)) (detail : String) (a : α) (i : Nat)
    (hd : dispatch a = none) :
    handleClient dispatch lines = lines.map (handleLine dispatch) ∧
    (handleClient dispatch lines).length = lines.length ∧
    (handleClient dispatch lines).get? i =
      (lines.get? i).map (handleLine dispatch) ∧
    handleClient dispatch (.invalid detail :: lines) =
      .err ("invalid JSON: " ++ detail) :: lines.map (handleLine dispatch) ∧
    handleLine dispatch (.valid a) = .err "internal error" := by
  have hmap := handleClientLoop_eq_append dispatch lines ([] : List (RpcOut β))
  refine ⟨by simpa [handleClient] using hmap, ?_, ?_, ?_, by simp [handleLine, hd]⟩
  · simp [handleClient, hmap]
  · simp [handleClient, hmap, List.getElem?_map]
  · simp [handleClient, handleClientLoop,
      handleClientLoop_eq_append dispatch lines, handleLine]

/-- C6 witness. -/
theorem rpc_errors_keep_connection_witness :
    (let dispatch : Nat → Option Nat := fun n => if n = 0 then none else some (n + 1)
     let lines : List (RpcLine Nat) := [.invalid "x", .valid 0, .valid 7]
     dispatch 0 = none ∧
     (handleClient dispatch lines = lines.map (handleLine dispatch) ∧
      (handleClient dispatch lines).length = lines.length ∧
      (handleClient dispatch lines).get? 2 =
        (lines.get? 2).map (handleLine dispatch) ∧
      handleClient dispatch (.invalid "oops" :: lines) =
        .err ("invalid JSON: " ++ "oops") :: lines.map (handleLine dispatch) ∧
      handleLine dispatch (.valid 0) = .err "internal error")) :=
  ⟨by decide,
   rpc_errors_keep_connection (fun n => if n = 0 then none else some (n + 1))
     [.invalid "x", .valid 0, .valid 7] "oops" 0 2 (by decide)⟩

/-! ## Presence mapping (`xmpp/presence.py`) -/

/-- `MAX_STATUS_LENGTH` constant (presence.py line 24). -/
def MAX_STATUS_LENGTH : Nat := 140

/-- `_truncate` (presence.py lines 73-77): over-long text becomes
`text[: max_len - 1] + "…"` (a single ellipsis code point). -/
def truncateStatus (text : String) (maxLen : Nat) : String :=
  if text.length ≤ maxLen then text
  else String.mk (text.data.take (maxLen - 1)) ++ "…"

/-- `state_to_presence` (presence.py lines 45-70). -/
def state_to_presence (state detail : String) : String × String :=
  if state = "idle" then ("chat", "Ready")
  else if state = "working" then
    let status :=
      if detail ≠ "" then
        "Working: " ++ truncateStatus detail (MAX_STATUS_LENGTH - "Working: ".length)
      else "Working"
    ("dnd", status)
  else if state = "blocked" then
    let status :=
      if detail ≠ "" then
        "Waiting: " ++ truncateStatus detail (MAX_STATUS_LENGTH - "Waiting: ".length)
      else "Waiting"
    ("away", status)
  else ("", state)

/-! ## Presence lemmas -/

lemma string_mk_length (l : List Char) : (String.mk l).length = l.length := rfl

lemma truncateStatus_short (text : String) (maxLen : Nat)
    (h : text.length ≤ maxLen) : truncateStatus text maxLen = text := by
  simp [truncateStatus, h]

lemma truncateStatus_long (text : String) (maxLen : Nat)
    (hpos : 1 ≤ maxLen) (h : maxLen < text.length) :
    truncateStatus text maxLen = String.mk (text.data.take (maxLen - 1)) ++ "…" ∧
    (truncateStatus text maxLen).length = maxLen := by
  have hne : ¬ text.length ≤ maxLen := by omega
  have hdata : text.data.length = text.length := rfl
  constructor
  · simp [truncateStatus, hne]
  · simp only [truncateStatus, hne, if_false, String.length_append,
      string_mk_length, List.length_take]
    have : ("…" : String).length = 1 := by decide
    rw [this]
    omega

lemma truncateStatus_length_le (text : String) (maxLen : Nat)
    (h : 1 ≤ maxLen) : (truncateStatus text maxLen).length ≤ maxLen := by
  by_cases hl : text.length ≤ maxLen
  · rw [truncateStatus_short text maxLen hl]; exact hl
  · exact le_of_eq (truncateStatus_long text maxLen h (by omega)).2

lemma state_to_presence_working_detail (d : String) (hd : d ≠ "") :
    state_to_presence "working" d =
      ("dnd", "Working: " ++ truncateStatus d 131) := by
  have h9 : MAX_STATUS_LENGTH - ("Working: " : String).length = 131 := by decide
  simp only [state_to_presence, h9]
  simp [hd]

lemma state_to_presence_blocked_detail (d : String) (hd : d ≠ "") :
    state_to_presence "blocked" d =
      ("away", "Waiting: " ++ truncateStatus d 131) := by
  have h9 : MAX_STATUS_LENGTH - ("Waiting: " : String).length = 131 := by decide
  simp only [state_to_presence, h9]
  simp [hd]

lemma idle_status_length_le (d : String) :
    (state_to_presence "idle" d).2.length ≤ MAX_STATUS_LENGTH := by
  have h : state_to_presence "idle" d = ("chat", "Ready") := by
    simp [state_to_presence]
  rw [h]; decide

lemma working_status_length_le (d : String) :
    (state_to_presence "working" d).2.length ≤ MAX_STATUS_LENGTH := by
  by_cases hd : d = ""
  · subst hd; decide
  · rw [state_to_presence_working_detail d hd]
    have htr := truncateStatus_length_le d 131 (by omega)
    have h9 : ("Working: " : String).length = 9 := by decide
    simp only [String.length_append, h9, MAX_STATUS_LENGTH]
    omega

lemma blocked_status_length_le (d : String) :
    (state_to_presence "blocked" d).2.length ≤ MAX_STATUS_LENGTH := by
  by_cases hd : d = ""
  · subst hd; decide
  · rw [state_to_presence_blocked_detail d hd]
    have htr := truncateStatus_length_le d 131 (by omega)
    have h9 : ("Waiting: " : String).length = 9 := by decide
    simp only [String.length_append, h9, MAX_STATUS_LENGTH]
    omega

/-! ## Claim theorems: presence mapping -/

set_option maxRecDepth 4000 in
/-- C7 counterexample: an unknown phase string of 141 characters is
returned verbatim as the status text, which therefore exceeds the
140-character bound the claim asserts for every input. -/
theorem presence_length_counterexample :
    state_to_presence (String.mk (List.replicate 141 'x')) "" =
      ("", String.mk (List.replicate 141 'x')) ∧
    (state_to_presence (String.mk (List.replicate 141 'x')) "").2.length = 141 ∧
    ¬ (state_to_presence (String.mk (List.replicate 141 'x')) "").2.length
        ≤ MAX_STATUS_LENGTH := by decide

/-- C7 amended: the mapping is total with the claimed branch behaviour —
idle ignores the detail; working/blocked prefix `Working: `/`Waiting: `
and truncate the detail to the 131 characters of room left under 140,
appending exactly one ellipsis when truncation occurs (the status is then
exactly 140 characters) — and the 140-character status bound holds for
the three known phases for EVERY detail; an unknown phase yields
(empty availability, the phase string itself), whose length is
unconstrained. -/
theorem presence_mapping (detail state d2 : String)
    (hd : detail ≠ "")
    (hu : state ≠ "idle" ∧ state ≠ "working" ∧ state ≠ "blocked") :
    state_to_presence "idle" detail = ("chat", "Ready") ∧
    state_to_presence "working" "" = ("dnd", "Working") ∧
    state_to_presence "working" detail =
      ("dnd", "Working: " ++ truncateStatus detail 131) ∧
    state_to_presence "blocked" "" = ("away", "Waiting") ∧
    state_to_presence "blocked" detail =
      ("away", "Waiting: " ++ truncateStatus detail 131) ∧
    state_to_presence state detail = ("", state) ∧
    (state_to_presence "idle" d2).2.length ≤ MAX_STATUS_LENGTH ∧
    (state_to_presence "working" d2).2.length ≤ MAX_STATUS_LENGTH ∧
    (state_to_presence "blocked" d2).2.length ≤ MAX_STATUS_LENGTH ∧
    (detail.length ≤ 131 → truncateStatus detail 131 = detail) ∧
    (131 < detail.length →
      truncateStatus detail 131 = String.mk (detail.data.take 130) ++ "…" ∧
      (truncateStatus detail 131).length = 131 ∧
      (state_to_presence "working" detail).2.length = MAX_STATUS_LENGTH ∧
      (state_to_presence "blocked" detail).2.length = MAX_STATUS_LENGTH) := by
  obtain ⟨h1, h2, h3⟩ := hu
  refine ⟨by simp [state_to_presence], by simp [state_to_presence],
    state_to_presence_working_detail detail hd,
    by simp [state_to_presence], state_to_presence_blocked_detail detail hd,
    by simp [state_to_presence, h1, h2, h3],
    idle_status_length_le d2, working_status_length_le d2,
    blocked_status_length_le d2,
    fun hs => truncateStatus_short detail 131 hs, fun hl => ?_⟩
  have hlong := truncateStatus_long detail 131 (by omega) hl
  have h9w : ("Working: " : String).length = 9 := by decide
  have h9b : ("Waiting: " : String).length = 9 := by decide
  refine ⟨hlong.1, hlong.2, ?_, ?_⟩
  · rw [state_to_presence_working_detail detail hd]
    simp only [String.length_append, h9w, hlong.2]
    decide
  · rw [state_to_presence_blocked_detail detail hd]
    simp only [String.length_append, h9b, hlong.2]
    decide

set_option maxRecDepth 8000 in
/-- C7 amended witness. -/
theorem presence_mapping_witness :
    ((String.mk (List.replicate 200 'y') ≠ "") ∧
     (("weird" : String) ≠ "idle" ∧ ("weird" : String) ≠ "working" ∧
      ("weird" : String) ≠ "blocked")) ∧
    (state_to_presence "idle" (String.mk (List.replicate 200 'y')) =
       ("chat", "Ready") ∧
     state_to_presence "working" "" = ("dnd", "Working") ∧
     state_to_presence "working" (String.mk (List.replicate 200 'y')) =
       ("dnd", "Working: " ++ truncateStatus (String.mk (List.replicate 200 'y')) 131) ∧
     state_to_presence "blocked" "" = ("away", "Waiting") ∧
     state_to_presence "blocked" (String.mk (List.replicate 200 'y')) =
       ("away", "Waiting: " ++ truncateStatus (String.mk (List.replicate 200 'y')) 131) ∧
     state_to_presence "weird" (String.mk (List.replicate 200 'y')) =
       ("", "weird") ∧
     (state_to_presence "idle" (String.mk (List.replicate 141 'z'))).2.length
       ≤ MAX_STATUS_LENGTH ∧
     (state_to_presence "working" (String.mk (List.replicate 141 'z'))).2.length
       ≤ MAX_STATUS_LENGTH ∧
     (state_to_presence "blocked" (String.mk (List.replicate 141 'z'))).2.length
       ≤ MAX_STATUS_LENGTH ∧
     ((String.mk (List.replicate 200 'y')).length ≤ 131 →
       truncateStatus (String.mk (List.replicate 200 'y')) 131 =
         String.mk (List.replicate 200 'y')) ∧
     (131 < (String.mk (List.replicate 200 'y')).length →
       truncateStatus (String.mk (List.replicate 200 'y')) 131 =
         String.mk ((String.mk (List.replicate 200 'y')).data.take 130) ++ "…" ∧
       (truncateStatus (String.mk (List.replicate 200 'y')) 131).length = 131 ∧
       (state_to_presence "working" (String.mk (List.replicate 200 'y'))).2.length =
         MAX_STATUS_LENGTH ∧
       (state_to_presence "blocked" (String.mk (List.replicate 200 'y'))).2.length =
         MAX_STATUS_LENGTH)) :=
  ⟨⟨by decide, by decide, by decide, by decide⟩,
   presence_mapping (String.mk (List.replicate 200 'y')) "weird"
     (String.mk (List.replicate 141 'z')) (by decide)
     ⟨by decide, by decide, by decide⟩⟩

/-! ## Mailbox fetch cycle (`mail.py` `_process_new_mail`) -/

/-- The fate of one UID inside the per-message `try` of
`_process_new_mail`: fetch + callback succeeded (`notified`); the fetch
returned `None` so no callback ran but the cursor still advances
(`fetchedNone`); or an exception was raised and caught, leaving the
cursor untouched for this UID (`raised`). -/
inductive MailOutcome
  | notified
  | fetchedNone
  | raised
deriving DecidableEq

/-- The body of the `for uid in uids` loop of `_process_new_mail`,
threading `(max_uid, notified-so-far)`. -/
def mailStep (outcome : Nat → MailOutcome) (acc : Nat × List Nat)
    (uid : Nat) : Nat × List Nat :=
  match outcome uid with
  | .raised => acc
  | .fetchedNone => (max acc.1 uid, acc.2)
  | .notified => (max acc.1 uid, acc.2 ++ [uid])

/-- `MailWatcher._process_new_mail` (mail.py lines 258-282): `lastSeen`
is the prior cursor, `searchOk` whether the UID search returned OK with a
non-empty line, `serverUids` the UIDs of the search reply in server
order, `outcome` each message's fate.  Returns the new cursor and the
UIDs whose notification callback ran, in call order. -/
def processNewMail (lastSeen : Nat) (searchOk : Bool) (serverUids : List Nat)
    (outcome : Nat → MailOutcome) : Nat × List Nat :=
  if !searchOk then (lastSeen, [])
  else
    let uids := serverUids.filter (fun u => lastSeen < u)
    if uids.isEmpty then (lastSeen, [])
    else uids.foldl (mailStep outcome) (lastSeen, [])

/-! ## Mailbox cycle lemmas -/

lemma mailStep_foldl (outcome : Nat → MailOutcome) (uids : List Nat)
    (c : Nat) (ns : List Nat) :
    uids.foldl (mailStep outcome) (c, ns) =
      ((uids.filter (fun u => outcome u ≠ .raised)).foldl max c,
       ns ++ uids.filter (fun u => outcome u = .notified)) := by
  induction uids generalizing c ns with
  | nil => simp
  | cons u rest ih =>
      cases ho : outcome u with
      | raised => simp [mailStep, ho, ih]
      | fetchedNone => simp [mailStep, ho, ih]
      | notified => simp [mailStep, ho, ih]

lemma le_foldl_max (l : List Nat) (c : Nat) : c ≤ l.foldl max c := by
  induction l generalizing c with
  | nil => simp
  | cons x rest ih =>
      calc c ≤ max c x := le_max_left c x
        _ ≤ rest.foldl max (max c x) := ih (max c x)
        _ = (x :: rest).foldl max c := rfl

/-! ## Claim theorem: mailbox fetch cycle -/

/-- C8: a fetch cycle processes exactly the server UIDs strictly above
the prior cursor, invoking the callback once per non-failing message in
server order (a caught per-message failure skips only that message);
the returned cursor is the fold of `max` over the successfully processed
UIDs starting from the prior cursor, hence never below it; when the
server list is strictly ascending the notifications come out strictly
ascending; and the concrete cycle (cursor 4, UIDs [5,6,9], all
successful) yields cursor 9 with notifications [5,6,9]. -/
theorem mail_cycle_cursor_monotone (lastSeen : Nat) (searchOk : Bool)
    (serverUids : List Nat) (outcome : Nat → MailOutcome)
    (hok : searchOk = true)
    (hsorted : serverUids.Pairwise (· < ·)) :
    (processNewMail lastSeen searchOk serverUids outcome).2 =
      (serverUids.filter (fun u => lastSeen < u)).filter
        (fun u => outcome u = .notified) ∧
    (processNewMail lastSeen searchOk serverUids outcome).1 =
      ((serverUids.filter (fun u => lastSeen < u)).filter
        (fun u => outcome u ≠ .raised)).foldl max lastSeen ∧
    lastSeen ≤ (processNewMail lastSeen searchOk serverUids outcome).1 ∧
    (processNewMail lastSeen searchOk serverUids outcome).2.Pairwise (· < ·) ∧
    processNewMail 4 true [5, 6, 9] (fun _ => .notified) = (9, [5, 6, 9]) := by
  subst hok
  by_cases hE : (serverUids.filter (fun u => lastSeen < u)).isEmpty
  · have h0 : processNewMail lastSeen true serverUids outcome =
        (lastSeen, []) := by
      simp [processNewMail, hE]
    rw [List.isEmpty_iff] at hE
    refine ⟨by simp [h0, hE], by simp [h0, hE], by simp [h0], by simp [h0],
      by decide⟩
  · have h0 : processNewMail lastSeen true serverUids outcome =
        ((serverUids.filter (fun u => lastSeen < u)).foldl
          (mailStep outcome) (lastSeen, []) : Nat × List Nat) := by
      simp [processNewMail, hE]
    rw [h0, mailStep_foldl]
    refine ⟨by simp, ?_, ?_, ?_, by decide⟩
    · simp [List.filter_filter]
    · simpa using le_foldl_max _ lastSeen
    · simpa using ((hsorted.filter _).filter _)

/-- C8 witness. -/
theorem mail_cycle_cursor_monotone_witness :
    (true = true ∧ ([5, 6, 9] : List Nat).Pairwise (· < ·)) ∧
    ((processNewMail 4 true [5, 6, 9] (fun _ => .notified)).2 =
       (([5, 6, 9] : List Nat).filter (fun u => 4 < u)).filter
         (fun u => (fun _ => MailOutcome.notified) u = .notified) ∧
     (processNewMail 4 true [5, 6, 9] (fun _ => .notified)).1 =
       ((([5, 6, 9] : List Nat).filter (fun u => 4 < u)).filter
         (fun u => (fun _ => MailOutcome.notified) u ≠ .raised)).foldl max 4 ∧
     4 ≤ (processNewMail 4 true [5, 6, 9] (fun _ => .notified)).1 ∧
     (processNewMail 4 true [5, 6, 9] (fun _ => .notified)).2.Pairwise (· < ·) ∧
     processNewMail 4 true [5, 6, 9] (fun _ => .notified) = (9, [5, 6, 9])) :=
  ⟨⟨rfl, by decide⟩,
   mail_cycle_cursor_monotone 4 true [5, 6, 9] (fun _ => .notified) rfl
     (by decide)⟩

/-! ## Chat message routing (`xmpp/client.py` and `daemon.py`) -/

end Nuketown
